import Mathlib

/-!
Verification of the EchoPersona audio-ingestion decision pipeline and the
hybrid generation router, shallowly embedded from
backend/ai_engine/voice_processor.py and backend/ai_engine/hybrid_llm_service.py.

Byte blobs are modelled as List Nat (one Nat per byte). External library
calls (pydub conversion, the speech_recognition backends, the alternative
extraction helpers, hashlib.md5, HTTP requests) are modelled as oracle
fields of an environment structure; everything else is translated
directly from the Python source.
-/

namespace EchoPersona

/-- Python startswith on lists: the first argument matches the leading
elements of the second. -/
def listLead {α} [DecidableEq α] : List α → List α → Bool
  | [], _ => true
  | _ :: _, [] => false
  | a :: as, b :: bs => if a = b then listLead as bs else false

/-- Python membership test for sequences: the pattern occurs contiguously
inside the second list. -/
def listIn {α} [DecidableEq α] : List α → List α → Bool
  | pat, [] => listLead pat ([] : List α)
  | pat, l@(_ :: rest) => listLead pat l || listIn pat rest

/-- Fuel-indexed worker for Python str.replace: left-to-right,
non-overlapping replacement of a nonempty pattern. The fuel starts at the
length of the subject and decreases by one per step while the subject
shrinks by at least one, so the fuel never runs out on the initial call. -/
def replaceListAux (pat rep : List Char) : Nat → List Char → List Char
  | _, [] => []
  | 0, l => l
  | fuel + 1, c :: rest =>
      if pat ≠ [] ∧ listLead pat (c :: rest) = true then
        rep ++ replaceListAux pat rep fuel (List.drop (pat.length - 1) rest)
      else
        c :: replaceListAux pat rep fuel rest

/-- Python str.replace with a nonempty pattern. An empty pattern is
treated as a no-op (the embedded code only ever replaces nonempty
scaffolding tokens). -/
def replaceList (pat rep s : List Char) : List Char :=
  replaceListAux pat rep s.length s

/-- Python str.replace lifted to String. -/
def pyReplace (s pat rep : String) : String :=
  ⟨replaceList pat.data rep.data s.data⟩

/-- Whitespace characters removed by Python str.strip. -/
def pySpaceChar (c : Char) : Bool :=
  c == ' ' || c == '\t' || c == '\n' || c == '\r' || c == '\x0b' || c == '\x0c'

/-- Python str.strip. -/
def pyStrip (s : String) : String :=
  ⟨((s.data.dropWhile pySpaceChar).reverse.dropWhile pySpaceChar).reverse⟩

/-- Python str.lower on the ASCII inputs the pipeline handles. -/
def pyLower (s : String) : String :=
  ⟨s.data.map Char.toLower⟩

/-- Python substring membership test on String. -/
def pyContains (s pat : String) : Bool :=
  listIn pat.data s.data

/-- Python str.endswith against a tuple of single characters. -/
def pyEndsWithAny (s : String) (cs : List Char) : Bool :=
  match s.data.getLast? with
  | some c => cs.contains c
  | none => false

/-! VoiceProcessor._validate_audio_data: the plausibility gate. -/

structure AudioValidation where
  is_valid : Bool
  size : Nat
  error : Option String
  likely_has_speech : Bool
  recommendation : Option String
deriving DecidableEq

/-- Embedding of VoiceProcessor._validate_audio_data: ordered byte-length
thresholds, first match wins. -/
def validate_audio_data (audio : List Nat) : AudioValidation :=
  let n := audio.length
  if n = 0 then
    { is_valid := false, size := n,
      error := some "Empty audio data",
      likely_has_speech := false,
      recommendation := some "Please record some audio first" }
  else if n < 44 then
    { is_valid := false, size := n,
      error := some ("Audio too small (" ++ toString n ++ " bytes) - likely no speech content"),
      likely_has_speech := false,
      recommendation := some "The recording is extremely short. Please record for at least 1-2 seconds with clear speech." }
  else if n < 1000 then
    { is_valid := true, size := n,
      error := some ("Audio very small (" ++ toString n ++ " bytes) - probably silence, noise, or recording issue"),
      likely_has_speech := false,
      recommendation := some "The recording seems to contain only silence or noise. Please check your microphone and speak clearly for at least 2-3 seconds." }
  else if n < 2000 then
    { is_valid := true, size := n,
      error := some ("Audio small (" ++ toString n ++ " bytes) - may not contain enough speech"),
      likely_has_speech := false,
      recommendation := some "The recording is very short. Please speak for at least 2-3 seconds with clear speech." }
  else
    { is_valid := true, size := n, error := none,
      likely_has_speech := true, recommendation := none }

/-- True when the verdict carries an error message containing the given
pattern. -/
def errorContains (v : AudioValidation) (pat : String) : Bool :=
  match v.error with
  | some e => listIn pat.data e.data
  | none => false

/-! VoiceProcessor._analyze_audio_format: the format sniffer. -/

structure FormatInfo where
  format : String
  is_valid : Bool
  size : Nat
  needs_conversion : Bool
  error : Option String
deriving DecidableEq

def riffBytes : List Nat := [0x52, 0x49, 0x46, 0x46]
def waveBytes : List Nat := [0x57, 0x41, 0x56, 0x45]
def ebmlBytes : List Nat := [0x1a, 0x45, 0xdf, 0xa3]
def ftypBytes : List Nat := [0x66, 0x74, 0x79, 0x70]
def oggsBytes : List Nat := [0x4f, 0x67, 0x67, 0x53]

/-- Embedding of VoiceProcessor._analyze_audio_format: pure byte-signature
matching on a fixed-size prefix. -/
def analyze_audio_format (audio : List Nat) : FormatInfo :=
  if audio.length < 12 then
    { format := "unknown", is_valid := false, size := audio.length,
      needs_conversion := false, error := some "Audio data too small" }
  else if audio.take 4 = riffBytes ∧ (audio.drop 8).take 4 = waveBytes then
    { format := "wav", is_valid := true, size := audio.length,
      needs_conversion := false, error := none }
  else if audio.take 4 = ebmlBytes then
    { format := "webm", is_valid := false, size := audio.length,
      needs_conversion := true, error := none }
  else if listIn ftypBytes (audio.take 20) = true then
    { format := "mp4", is_valid := false, size := audio.length,
      needs_conversion := true, error := none }
  else if audio.take 4 = oggsBytes then
    { format := "ogg", is_valid := false, size := audio.length,
      needs_conversion := true, error := none }
  else
    { format := "unknown", is_valid := false, size := audio.length,
      needs_conversion := false, error := none }

/-! VoiceProcessor._create_wav_from_raw_pcm and _try_raw_pcm_variants:
raw-PCM reinterpretation with a synthesized RIFF/WAVE header. -/

/-- Little-endian 2-byte packing, as in struct.pack with format <H. -/
def packU16 (n : Nat) : List Nat :=
  [n % 256, n / 256 % 256]

/-- Little-endian 4-byte packing, as in struct.pack with format <I. -/
def packU32 (n : Nat) : List Nat :=
  [n % 256, n / 256 % 256, n / 65536 % 256, n / 16777216 % 256]

/-- Embedding of VoiceProcessor._create_wav_from_raw_pcm: prepend a
44-byte RIFF/WAVE header to raw PCM data. -/
def create_wav_from_raw_pcm (audio : List Nat) (sample_rate channels sample_width : Nat) : List Nat :=
  let byte_rate := sample_rate * channels * sample_width
  let block_align := channels * sample_width
  let data_size := audio.length
  let file_size := 36 + data_size
  (riffBytes ++ packU32 file_size ++ waveBytes
    ++ [0x66, 0x6d, 0x74, 0x20] ++ packU32 16 ++ packU16 1 ++ packU16 channels
    ++ packU32 sample_rate ++ packU32 byte_rate ++ packU16 block_align
    ++ packU16 (sample_width * 8) ++ [0x64, 0x61, 0x74, 0x61] ++ packU32 data_size)
  ++ audio

/-- The configuration list tried by _try_raw_pcm_variants:
(sample_rate, channels, sample_width) in source order. -/
def pcm_configs : List (Nat × Nat × Nat) :=
  [(16000, 1, 2), (44100, 1, 2), (48000, 1, 2), (22050, 1, 2), (8000, 1, 2)]

/-- Loop body of _try_raw_pcm_variants over the configuration list. -/
def try_raw_pcm_go (audio : List Nat) : List (Nat × Nat × Nat) → Option (List Nat)
  | [] => none
  | (rate, channels, width) :: rest =>
      let bytes_per_sample := channels * width
      let trimmed :=
        if audio.length % bytes_per_sample ≠ 0 then
          audio.take (audio.length - audio.length % bytes_per_sample)
        else audio
      if trimmed.length < bytes_per_sample * 100 then
        try_raw_pcm_go audio rest
      else
        let wav := create_wav_from_raw_pcm trimmed rate channels width
        if wav ≠ [] ∧ 44 < wav.length then some wav
        else try_raw_pcm_go audio rest

/-- Embedding of VoiceProcessor._try_raw_pcm_variants: returns the WAV of
the first configuration that yields at least 100 samples and a body longer
than 44 bytes. -/
def try_raw_pcm_variants (audio : List Nat) : Option (List Nat) :=
  try_raw_pcm_go audio pcm_configs

/-! VoiceProcessor._try_mock_recognition: deterministic mock transcripts.
The md5 digest comes from hashlib, an external library, so the value
int(md5(audio).hexdigest()[:2], 16) is supplied by the environment. -/

def mock_responses_small : List String :=
  ["Hello, testing microphone.",
   "Can you hear me?",
   "This is a test.",
   "How are you today?"]

def mock_responses_large : List String :=
  ["Hello, I would like to know about your services.",
   "Can you tell me about your products?",
   "What are your business hours?",
   "I need help with my account.",
   "Thank you for your assistance."]

/-- Embedding of VoiceProcessor._try_mock_recognition. The Python guard
size_kb < 1 on the float len(audio)/1024 is exactly len(audio) < 1024. -/
def try_mock_recognition (md5hex2 : List Nat → Nat) (audio : List Nat) : Option String :=
  if audio.length < 200 then none
  else
    let responses := if audio.length < 1024 then mock_responses_small else mock_responses_large
    some (responses.getD (md5hex2 audio % responses.length) "")

/-! VoiceProcessor.speech_to_text: the recognition strategy chain.
External collaborators are oracle functions; the trace of externally
visible attempts is returned alongside the transcript. -/

/-- Oracles for the external collaborators of speech_to_text. A Python
exception inside a collaborator is modelled as none, matching the
try/except blocks that swallow it. -/
structure STTEnv where
  convertWebm : List Nat → Option (List Nat)
  convertWebmEnhanced : List Nat → Option (List Nat)
  convertContainer : List Nat → String → Option (List Nat)
  recognize : String → List Nat → Option String
  directWebm : List Nat → Option String
  alternative : List Nat → Option String
  md5hex2 : List Nat → Nat

/-- Externally visible attempts made by speech_to_text, in order. A
recogCall records the exact bytes handed to _try_speech_recognition. -/
inductive Ev where
  | convCall (name : String) : Ev
  | recogCall (name : String) (payload : List Nat) : Ev
  | directCall (name : String) : Ev
  | altCall : Ev
  | mockCall : Ev
deriving DecidableEq

def isRecogEv : Ev → Bool
  | .recogCall _ _ => true
  | _ => false

/-- One entry of the recognition_methods list: either a direct-recognition
method or a conversion-based method carrying its conversion result. -/
inductive Strategy where
  | direct (name : String) : Strategy
  | conv (name : String) (result : Option (List Nat)) : Strategy
deriving DecidableEq

def stratName : Strategy → String
  | .direct name => name
  | .conv name _ => name

/-- The recognition_methods list built by speech_to_text for the
non-quick path, in source order. -/
def recognition_methods (env : STTEnv) (audio : List Nat) (fi : FormatInfo) : List Strategy :=
  (if fi.format = "webm" then
    [Strategy.direct "direct_webm",
     Strategy.conv "webm_enhanced" (env.convertWebmEnhanced audio),
     Strategy.conv "webm_standard" (env.convertWebm audio)]
  else if fi.needs_conversion = true ∧ (fi.format = "mp4" ∨ fi.format = "ogg") then
    [Strategy.conv (fi.format ++ "_converted") (env.convertContainer audio fi.format)]
  else if fi.is_valid = true ∧ fi.format = "wav" then
    [Strategy.conv "original_wav" (some audio)]
  else [])
  ++ (if 1000 < audio.length then
        [Strategy.conv "raw_pcm_fallback" (try_raw_pcm_variants audio)]
      else [])

/-- Prepend one event to a partial pipeline outcome. -/
def pushEv (e : Ev) (p : Option String × List Ev) : Option String × List Ev :=
  (p.1, e :: p.2)

/-- The mock last resort at the end of the chain. An empty mock string
would be falsy in Python and yield no transcript. -/
def runMock (env : STTEnv) (audio : List Nat) : Option String × List Ev :=
  match try_mock_recognition env.md5hex2 audio with
  | some t => if t = "" then (none, [Ev.mockCall]) else (some t, [Ev.mockCall])
  | none => (none, [Ev.mockCall])

/-- Alternative extraction followed by the mock last resort, shared by the
quick path and the exhausted main chain. -/
def runTail (env : STTEnv) (audio : List Nat) : Option String × List Ev :=
  match env.alternative audio with
  | some t =>
      if t = "" then pushEv Ev.altCall (runMock env audio)
      else (some t, [Ev.altCall])
  | none => pushEv Ev.altCall (runMock env audio)

/-- The strategy loop of speech_to_text. A conversion result is handed to
_try_speech_recognition only when it is truthy and longer than 44 bytes;
an empty transcript is falsy in Python, so the loop continues past it. -/
def runStrategies (env : STTEnv) (audio : List Nat) : List Strategy → Option String × List Ev
  | [] => (none, [])
  | Strategy.direct name :: rest =>
      match env.directWebm audio with
      | some t =>
          if t = "" then pushEv (Ev.directCall name) (runStrategies env audio rest)
          else (some t, [Ev.directCall name])
      | none => pushEv (Ev.directCall name) (runStrategies env audio rest)
  | Strategy.conv name cres :: rest =>
      match cres with
      | some b =>
          if 44 < b.length then
            match env.recognize name b with
            | some t =>
                if t = "" then
                  pushEv (Ev.convCall name) (pushEv (Ev.recogCall name b) (runStrategies env audio rest))
                else (some t, [Ev.convCall name, Ev.recogCall name b])
            | none =>
                pushEv (Ev.convCall name) (pushEv (Ev.recogCall name b) (runStrategies env audio rest))
          else pushEv (Ev.convCall name) (runStrategies env audio rest)
      | none => pushEv (Ev.convCall name) (runStrategies env audio rest)

/-- The quick path taken for valid blobs judged unlikely to contain
speech: at most one cheap webm conversion and recognition attempt, then
alternative extraction, then the mock last resort. -/
def quickPath (env : STTEnv) (audio : List Nat) : Option String × List Ev :=
  if (analyze_audio_format audio).format = "webm" then
    match env.convertWebm audio with
    | some b =>
        if 44 < b.length then
          match env.recognize "webm_quick" b with
          | some t =>
              if t = "" then
                pushEv (Ev.convCall "webm_quick") (pushEv (Ev.recogCall "webm_quick" b) (runTail env audio))
              else (some t, [Ev.convCall "webm_quick", Ev.recogCall "webm_quick" b])
          | none =>
              pushEv (Ev.convCall "webm_quick") (pushEv (Ev.recogCall "webm_quick" b) (runTail env audio))
        else pushEv (Ev.convCall "webm_quick") (runTail env audio)
    | none => pushEv (Ev.convCall "webm_quick") (runTail env audio)
  else runTail env audio

/-- Embedding of VoiceProcessor.speech_to_text: validation gate, 500-byte
early exit, quick path for blobs unlikely to contain speech, then the
ordered strategy list followed by alternative extraction and the mock
last resort. -/
def speech_to_text (env : STTEnv) (audio : List Nat) : Option String × List Ev :=
  if (validate_audio_data audio).is_valid = true then
    if audio.length < 500 then (none, [])
    else if (validate_audio_data audio).likely_has_speech = false ∧ audio.length < 2000 then
      quickPath env audio
    else
      let p := runStrategies env audio (recognition_methods env audio (analyze_audio_format audio))
      match p.1 with
      | some t => (some t, p.2)
      | none => ((runTail env audio).1, p.2 ++ (runTail env audio).2)
  else (none, [])

/-! HybridLLMService: backend pin and output post-processing, embedded
from backend/ai_engine/hybrid_llm_service.py. -/

/-- The canonical fallback sentence returned by
_clean_and_validate_response for vacuous or too-short outputs. -/
def fallback_doc_message : String :=
  "I can only provide information based on our available documentation. Please ask about topics covered in our materials."

/-- The scaffolding-token stripping performed at the top of
_clean_and_validate_response: four str.replace calls then str.strip. -/
def stripScaffolding (response : String) : String :=
  pyStrip (pyReplace (pyReplace (pyReplace (pyReplace response "Assistant:" "") "AI:" "") "Response:" "") "Your Response:" "")

/-- Embedding of HybridLLMService._clean_and_validate_response. The
knowledge_context and user_message parameters of the Python method are
never read, so they are omitted. -/
def clean_and_validate_response (response : String) : String :=
  let r := stripScaffolding response
  if pyContains r "I\x27m here to provide support based on our documentation" = true then
    fallback_doc_message
  else if r.data.length < 15 ∧ pyContains (pyLower r) "documentation" = false then
    fallback_doc_message
  else if pyEndsWithAny r ['?', '.', '!', ')', '\x22'] = true then r
  else ⟨r.data ++ ['.']⟩

/-- Outcome of one Ollama generation call: a 200 response with a body, a
non-200 status, or a raised exception. -/
inductive OllamaOutcome where
  | ok (text : String) : OllamaOutcome
  | httpErr : OllamaOutcome
  | exn : OllamaOutcome

/-- Outcome of one Gemini generation call. -/
inductive GeminiOutcome where
  | ok (text : String) : GeminiOutcome
  | exn : GeminiOutcome

/-- Oracles for one generate_response call: the availability probe result
and the outcome each backend would produce if invoked. -/
structure GenEnv where
  ollamaAvailable : Bool
  ollamaOutcome : OllamaOutcome
  geminiOutcome : GeminiOutcome

/-- The fixed apology produced when the Gemini call raises. -/
def apology_message : String :=
  "I apologize, but I\x27m having trouble processing your request right now. Please try again."

/-- Embedding of HybridLLMService._generate_gemini_response: strip the
raw text (an absent body strips to the empty string) and post-process, or
the fixed apology on an exception. -/
def generate_gemini_response (env : GenEnv) : String :=
  match env.geminiOutcome with
  | .ok t => clean_and_validate_response (pyStrip t)
  | .exn => apology_message

/-- Embedding of HybridLLMService._generate_ollama_response, returning
the updated use_ollama pin together with the response. A non-200 status
and a raised exception both clear the pin and fall back to Gemini. -/
def generate_ollama_response (env : GenEnv) : Option Bool × String :=
  match env.ollamaOutcome with
  | .ok t => (some true, clean_and_validate_response (pyStrip t))
  | .httpErr => (some false, generate_gemini_response env)
  | .exn => (some false, generate_gemini_response env)

/-- Embedding of HybridLLMService.generate_response: probe on the first
call, then route by the pinned choice; a local failure clears the pin for
all future calls. Returns (new pin, response, whether this call probed).
The exception caught in generate_response itself also clears the pin and
retries Gemini, identically to the handling inside
_generate_ollama_response, so both are covered by the ollama outcome. -/
def generate_response (use_ollama : Option Bool) (env : GenEnv) : Option Bool × String × Bool :=
  let probed := use_ollama.isNone
  let pinned : Bool :=
    match use_ollama with
    | none => env.ollamaAvailable
    | some b => b
  if pinned then
    let p := generate_ollama_response env
    (p.1, p.2, probed)
  else
    (some false, generate_gemini_response env, probed)

/-- A sequence of generate_response calls against one service instance:
returns the final pin and the per-call probe flags. -/
def run_generate : Option Bool → List GenEnv → Option Bool × List Bool
  | s, [] => (s, [])
  | s, env :: rest =>
      let step := generate_response s env
      let tail := run_generate step.1 rest
      (tail.1, step.2.2 :: tail.2)

/-- The transitions the specification allows for the use_ollama pin:
unset to local or remote via the probe, local to remote on failure, and
the two self-loops. There is no edge back to unset and none from remote
to local. -/
inductive PinStep : Option Bool → Option Bool → Prop
  | probeLocal : PinStep none (some true)
  | probeRemote : PinStep none (some false)
  | stayLocal : PinStep (some true) (some true)
  | demote : PinStep (some true) (some false)
  | stayRemote : PinStep (some false) (some false)

/-- An environment in which every external collaborator fails: all
conversions and recognizers yield nothing and the md5 prefix value is 0. -/
def envNone : STTEnv where
  convertWebm := fun _ => none
  convertWebmEnhanced := fun _ => none
  convertContainer := fun _ _ => none
  recognize := fun _ _ => none
  directWebm := fun _ => none
  alternative := fun _ => none
  md5hex2 := fun _ => 0

/-- An environment whose webm conversion yields a 100-byte body while
every recognizer still fails. -/
def envW : STTEnv where
  convertWebm := fun _ => some (List.replicate 100 0)
  convertWebmEnhanced := fun _ => none
  convertContainer := fun _ _ => none
  recognize := fun _ _ => none
  directWebm := fun _ => none
  alternative := fun _ => none
  md5hex2 := fun _ => 0

/-! Auxiliary lemmas about the list utilities. -/

theorem listLead_append {α} [DecidableEq α] (pat : List α) :
    ∀ s t : List α, listLead pat s = true → listLead pat (s ++ t) = true := by
  induction pat with
  | nil => intro s t _; rfl
  | cons a as ih =>
    intro s t h
    cases s with
    | nil => simp [listLead] at h
    | cons b bs =>
      simp only [listLead, List.cons_append] at h ⊢
      by_cases hab : a = b
      · rw [if_pos hab] at h ⊢
        exact ih bs t h
      · rw [if_neg hab] at h
        exact absurd h (by simp)

theorem listIn_nil_pat {α} [DecidableEq α] (t : List α) : listIn ([] : List α) t = true := by
  cases t <;> simp [listIn, listLead]

theorem listIn_append_left {α} [DecidableEq α] (pat s t : List α)
    (h : listIn pat s = true) : listIn pat (s ++ t) = true := by
  induction s with
  | nil =>
    cases pat with
    | nil => exact listIn_nil_pat t
    | cons a as => simp [listIn, listLead] at h
  | cons c cs ih =>
    simp only [listIn, Bool.or_eq_true] at h
    rcases h with h | h
    · have := listLead_append pat (c :: cs) t h
      simp only [List.cons_append] at this ⊢
      simp [listIn, this]
    · simp only [List.cons_append]
      simp [listIn, ih h]

theorem listIn_append_right {α} [DecidableEq α] (pat s t : List α)
    (h : listIn pat t = true) : listIn pat (s ++ t) = true := by
  induction s with
  | nil => simpa using h
  | cons c cs ih =>
    simp only [List.cons_append]
    simp [listIn, ih]

theorem listLead_length_le {α} [DecidableEq α] (pat : List α) :
    ∀ s : List α, listLead pat s = true → pat.length ≤ s.length := by
  induction pat with
  | nil => intro s _; simp
  | cons a as ih =>
    intro s h
    cases s with
    | nil => simp [listLead] at h
    | cons b bs =>
      simp only [listLead] at h
      by_cases hab : a = b
      · rw [if_pos hab] at h
        simpa using ih bs h
      · rw [if_neg hab] at h
        exact absurd h (by simp)

theorem listIn_length_le {α} [DecidableEq α] (pat s : List α)
    (h : listIn pat s = true) : pat.length ≤ s.length := by
  induction s with
  | nil =>
    cases pat with
    | nil => simp
    | cons a as => simp [listIn, listLead] at h
  | cons c cs ih =>
    simp only [listIn, Bool.or_eq_true] at h
    rcases h with h | h
    · exact listLead_length_le pat (c :: cs) h
    · exact le_trans (ih h) (by simp)

theorem getLast?_append_single {α} (l : List α) (c : α) :
    (l ++ [c]).getLast? = some c := by
  rw [List.getLast?_concat]

theorem mem_pushEv (e x : Ev) (p : Option String × List Ev) :
    e ∈ (pushEv x p).2 ↔ e = x ∨ e ∈ p.2 := by
  simp [pushEv]

/-! Claim C1: the plausibility gate is a pure function of blob length
with ordered thresholds, first match winning. -/

/-- C1: _validate_audio_data depends only on the blob length and applies
the ordered thresholds first-match-wins: length 0 is invalid with the
empty-audio diagnostic; 1 to 43 invalid mentioning too small and likely
no speech content; 44 to 999 valid with likely_has_speech false
mentioning probably silence and noise; 1000 to 1999 valid with
likely_has_speech false mentioning may not contain enough speech; 2000
and above valid with likely_has_speech true. The empty-audio diagnostic
in the source is capitalized as Empty audio data. -/
theorem validate_audio_thresholds (audio : List Nat) :
    (∀ b : List Nat, b.length = audio.length → validate_audio_data b = validate_audio_data audio) ∧
    (audio.length = 0 →
      (validate_audio_data audio).is_valid = false ∧
      (validate_audio_data audio).error = some "Empty audio data") ∧
    (1 ≤ audio.length → audio.length ≤ 43 →
      (validate_audio_data audio).is_valid = false ∧
      errorContains (validate_audio_data audio) "too small" = true ∧
      errorContains (validate_audio_data audio) "likely no speech content" = true) ∧
    (44 ≤ audio.length → audio.length ≤ 999 →
      (validate_audio_data audio).is_valid = true ∧
      (validate_audio_data audio).likely_has_speech = false ∧
      errorContains (validate_audio_data audio) "probably silence" = true ∧
      errorContains (validate_audio_data audio) "noise" = true) ∧
    (1000 ≤ audio.length → audio.length ≤ 1999 →
      (validate_audio_data audio).is_valid = true ∧
      (validate_audio_data audio).likely_has_speech = false ∧
      errorContains (validate_audio_data audio) "may not contain enough speech" = true) ∧
    (2000 ≤ audio.length →
      (validate_audio_data audio).is_valid = true ∧
      (validate_audio_data audio).likely_has_speech = true) := by
  refine ⟨?_, ?_, ?_, ?_, ?_, ?_⟩
  · intro b hb
    simp only [validate_audio_data, hb]
  · intro h
    simp only [validate_audio_data]
    rw [if_pos h]
    exact ⟨rfl, rfl⟩
  · intro h1 h2
    simp only [validate_audio_data]
    rw [if_neg (by omega : ¬ audio.length = 0), if_pos (by omega : audio.length < 44)]
    refine ⟨rfl, ?_, ?_⟩
    · simp only [errorContains, String.data_append]
      exact listIn_append_left _ _ _ (listIn_append_left _ _ _ (by decide))
    · simp only [errorContains, String.data_append]
      exact listIn_append_right _ _ _ (by decide)
  · intro h1 h2
    simp only [validate_audio_data]
    rw [if_neg (by omega : ¬ audio.length = 0), if_neg (by omega : ¬ audio.length < 44),
      if_pos (by omega : audio.length < 1000)]
    refine ⟨rfl, rfl, ?_, ?_⟩
    · simp only [errorContains, String.data_append]
      exact listIn_append_right _ _ _ (by decide)
    · simp only [errorContains, String.data_append]
      exact listIn_append_right _ _ _ (by decide)
  · intro h1 h2
    simp only [validate_audio_data]
    rw [if_neg (by omega : ¬ audio.length = 0), if_neg (by omega : ¬ audio.length < 44),
      if_neg (by omega : ¬ audio.length < 1000), if_pos (by omega : audio.length < 2000)]
    refine ⟨rfl, rfl, ?_⟩
    simp only [errorContains, String.data_append]
    exact listIn_append_right _ _ _ (by decide)
  · intro h1
    simp only [validate_audio_data]
    rw [if_neg (by omega : ¬ audio.length = 0), if_neg (by omega : ¬ audio.length < 44),
      if_neg (by omega : ¬ audio.length < 1000), if_neg (by omega : ¬ audio.length < 2000)]
    exact ⟨rfl, rfl⟩

/-- Witness for C1 at concrete lengths: a 50-byte blob is judged valid
with no likely speech, and a 10-byte blob is rejected as too small. -/
theorem validate_audio_thresholds_witness :
    ((validate_audio_data (List.replicate 50 0)).is_valid = true ∧
      (validate_audio_data (List.replicate 50 0)).likely_has_speech = false) ∧
    ((validate_audio_data (List.replicate 10 0)).is_valid = false ∧
      errorContains (validate_audio_data (List.replicate 10 0)) "too small" = true) := by
  constructor
  · have h := (validate_audio_thresholds (List.replicate 50 0)).2.2.2.1
      (by decide) (by decide)
    exact ⟨h.1, h.2.1⟩
  · have h := (validate_audio_thresholds (List.replicate 10 0)).2.2.1
      (by decide) (by decide)
    exact ⟨h.1, h.2.1⟩

/-! Claim C2: the use_ollama pin moves only along unset to local or
remote (probe, first call only) and local to remote (runtime failure),
and once remote no call ever re-probes. -/

/-- C2: every generate_response call moves the pin along an allowed
PinStep edge, probes exactly when the pin is unset, and from the remote
pin any sequence of further calls stays remote and never probes. -/
theorem hybrid_pin_transitions :
    (∀ (s : Option Bool) (env : GenEnv),
      PinStep s (generate_response s env).1 ∧
      ((generate_response s env).2.2 = true ↔ s = none)) ∧
    (∀ envs : List GenEnv,
      run_generate (some false) envs = (some false, List.replicate envs.length false)) := by
  constructor
  · intro s env
    constructor
    · cases s with
      | none =>
        cases ha : env.ollamaAvailable
        · have h1 : (generate_response none env).1 = some false := by
            simp [generate_response, ha]
          rw [h1]; exact PinStep.probeRemote
        · cases ho : env.ollamaOutcome with
          | ok t =>
            have h1 : (generate_response none env).1 = some true := by
              simp [generate_response, ha, generate_ollama_response, ho]
            rw [h1]; exact PinStep.probeLocal
          | httpErr =>
            have h1 : (generate_response none env).1 = some false := by
              simp [generate_response, ha, generate_ollama_response, ho]
            rw [h1]; exact PinStep.probeRemote
          | exn =>
            have h1 : (generate_response none env).1 = some false := by
              simp [generate_response, ha, generate_ollama_response, ho]
            rw [h1]; exact PinStep.probeRemote
      | some b =>
        cases b
        · have h1 : (generate_response (some false) env).1 = some false := by
            simp [generate_response]
          rw [h1]; exact PinStep.stayRemote
        · cases ho : env.ollamaOutcome with
          | ok t =>
            have h1 : (generate_response (some true) env).1 = some true := by
              simp [generate_response, generate_ollama_response, ho]
            rw [h1]; exact PinStep.stayLocal
          | httpErr =>
            have h1 : (generate_response (some true) env).1 = some false := by
              simp [generate_response, generate_ollama_response, ho]
            rw [h1]; exact PinStep.demote
          | exn =>
            have h1 : (generate_response (some true) env).1 = some false := by
              simp [generate_response, generate_ollama_response, ho]
            rw [h1]; exact PinStep.demote
    · cases s with
      | none =>
        simp only [generate_response, Option.isNone]
        split <;> simp
      | some b =>
        simp only [generate_response, Option.isNone]
        split <;> simp
  · intro envs
    induction envs with
    | nil => rfl
    | cons e rest ih =>
      have hstep : generate_response (some false) e =
          (some false, generate_gemini_response e, false) := by
        simp [generate_response]
      simp only [run_generate, hstep, ih, List.replicate_succ, List.length_cons]

/-- Witness for C2: starting from the remote pin, one concrete call
stays remote and does not probe. -/
theorem hybrid_pin_transitions_witness :
    run_generate (some false)
        [⟨true, OllamaOutcome.ok "hi", GeminiOutcome.ok "We offer full support."⟩] =
      (some false, [false]) := by
  have h := hybrid_pin_transitions.2
    [⟨true, OllamaOutcome.ok "hi", GeminiOutcome.ok "We offer full support."⟩]
  simpa using h

/-! Claim C3: a conversion result is handed to _try_speech_recognition
only when it exceeds 44 bytes, so no recognition call ever receives
converted output under 44 bytes. -/

theorem runMock_trace (env : STTEnv) (audio : List Nat) :
    (runMock env audio).2 = [Ev.mockCall] := by
  unfold runMock
  repeat' split
  all_goals rfl

theorem runTail_trace (env : STTEnv) (audio : List Nat) :
    (runTail env audio).2 = [Ev.altCall] ∨
    (runTail env audio).2 = [Ev.altCall, Ev.mockCall] := by
  unfold runTail
  split
  · split
    · right
      simp [pushEv, runMock_trace]
    · left
      rfl
  · right
    simp [pushEv, runMock_trace]

theorem runStrategies_recog (env : STTEnv) (audio : List Nat) :
    ∀ (l : List Strategy) (name : String) (b : List Nat),
      Ev.recogCall name b ∈ (runStrategies env audio l).2 → 44 < b.length := by
  intro l
  induction l with
  | nil =>
    intro name b h
    simp [runStrategies] at h
  | cons s rest ih =>
    intro name b h
    cases s with
    | direct dn =>
      simp only [runStrategies] at h
      cases hd : env.directWebm audio with
      | some t =>
        rw [hd] at h
        dsimp only at h
        by_cases ht : t = ""
        · rw [if_pos ht, mem_pushEv] at h
          rcases h with h | h
          · simp at h
          · exact ih name b h
        · rw [if_neg ht] at h
          simp at h
      | none =>
        rw [hd] at h
        dsimp only at h
        rw [mem_pushEv] at h
        rcases h with h | h
        · simp at h
        · exact ih name b h
    | conv cn cres =>
      simp only [runStrategies] at h
      cases cres with
      | none =>
        dsimp only at h
        rw [mem_pushEv] at h
        rcases h with h | h
        · simp at h
        · exact ih name b h
      | some bb =>
        dsimp only at h
        by_cases hb : 44 < bb.length
        · rw [if_pos hb] at h
          cases hr : env.recognize cn bb with
          | some t =>
            rw [hr] at h
            dsimp only at h
            by_cases ht : t = ""
            · rw [if_pos ht, mem_pushEv] at h
              rcases h with h | h
              · simp at h
              · rw [mem_pushEv] at h
                rcases h with h | h
                · simp at h
                  rcases h with ⟨h1, h2⟩
                  subst h2
                  exact hb
                · exact ih name b h
            · rw [if_neg ht] at h
              simp at h
              rcases h with ⟨h1, h2⟩
              subst h2
              exact hb
          | none =>
            rw [hr] at h
            dsimp only at h
            rw [mem_pushEv] at h
            rcases h with h | h
            · simp at h
            · rw [mem_pushEv] at h
              rcases h with h | h
              · simp at h
                rcases h with ⟨h1, h2⟩
                subst h2
                exact hb
              · exact ih name b h
        · rw [if_neg hb, mem_pushEv] at h
          rcases h with h | h
          · simp at h
          · exact ih name b h

theorem quickPath_recog (env : STTEnv) (audio : List Nat) (name : String) (b : List Nat)
    (h : Ev.recogCall name b ∈ (quickPath env audio).2) : 44 < b.length := by
  have htail := runTail_trace env audio
  simp only [quickPath] at h
  by_cases hf : (analyze_audio_format audio).format = "webm"
  · rw [if_pos hf] at h
    cases hc : env.convertWebm audio with
    | none =>
      rw [hc] at h
      dsimp only at h
      rw [mem_pushEv] at h
      rcases h with h | h
      · simp at h
      · rcases htail with ht | ht <;> rw [ht] at h <;> simp at h
    | some bb =>
      rw [hc] at h
      dsimp only at h
      by_cases hb : 44 < bb.length
      · rw [if_pos hb] at h
        cases hr : env.recognize "webm_quick" bb with
        | some t =>
          rw [hr] at h
          dsimp only at h
          by_cases ht : t = ""
          · rw [if_pos ht, mem_pushEv] at h
            rcases h with h | h
            · simp at h
            · rw [mem_pushEv] at h
              rcases h with h | h
              · simp at h
                rcases h with ⟨h1, h2⟩
                subst h2
                exact hb
              · rcases htail with hte | hte <;> rw [hte] at h <;> simp at h
          · rw [if_neg ht] at h
            simp at h
            rcases h with ⟨h1, h2⟩
            subst h2
            exact hb
        | none =>
          rw [hr] at h
          dsimp only at h
          rw [mem_pushEv] at h
          rcases h with h | h
          · simp at h
          · rw [mem_pushEv] at h
            rcases h with h | h
            · simp at h
              rcases h with ⟨h1, h2⟩
              subst h2
              exact hb
            · rcases htail with hte | hte <;> rw [hte] at h <;> simp at h
      · rw [if_neg hb, mem_pushEv] at h
        rcases h with h | h
        · simp at h
        · rcases htail with ht | ht <;> rw [ht] at h <;> simp at h
  · rw [if_neg hf] at h
    rcases htail with ht | ht <;> rw [ht] at h <;> simp at h

/-- C3: every payload handed to _try_speech_recognition anywhere in
speech_to_text is at least 44 bytes long (the source guard requires
strictly more than 44); converted output under 44 bytes is never passed
to a recognition call. -/
theorem recog_payload_min_size (env : STTEnv) (audio : List Nat) (name : String) (b : List Nat)
    (h : Ev.recogCall name b ∈ (speech_to_text env audio).2) : 44 ≤ b.length := by
  simp only [speech_to_text] at h
  by_cases hv : (validate_audio_data audio).is_valid = true
  · rw [if_pos hv] at h
    by_cases h5 : audio.length < 500
    · rw [if_pos h5] at h
      simp at h
    · rw [if_neg h5] at h
      by_cases hq : (validate_audio_data audio).likely_has_speech = false ∧ audio.length < 2000
      · rw [if_pos hq] at h
        exact le_of_lt (quickPath_recog env audio name b h)
      · rw [if_neg hq] at h
        cases hp : (runStrategies env audio (recognition_methods env audio (analyze_audio_format audio))).1 with
        | some t =>
          rw [hp] at h
          dsimp only at h
          exact le_of_lt (runStrategies_recog env audio _ name b h)
        | none =>
          rw [hp] at h
          dsimp only at h
          simp only [List.mem_append] at h
          rcases h with h | h
          · exact le_of_lt (runStrategies_recog env audio _ name b h)
          · rcases runTail_trace env audio with ht | ht <;> rw [ht] at h <;> simp at h
  · rw [if_neg hv] at h
    simp at h

set_option maxRecDepth 40000 in
/-- Witness for C3: on a concrete 600-byte webm blob whose conversion
yields 100 bytes, the recognition call that actually happens satisfies
the bound. -/
theorem recog_payload_min_size_witness :
    Ev.recogCall "webm_quick" (List.replicate 100 0) ∈
      (speech_to_text envW (ebmlBytes ++ List.replicate 596 0)).2 ∧
    44 ≤ (List.replicate 100 0).length := by
  refine ⟨by decide, ?_⟩
  exact recog_payload_min_size envW (ebmlBytes ++ List.replicate 596 0)
    "webm_quick" (List.replicate 100 0) (by decide)

/-! Claim C4: blobs with the EBML magic prefix classify as webm. The
source returns unknown for any blob shorter than 12 bytes before looking
at signatures, so the claim needs a length precondition. -/

/-- C4 counterexample: a blob consisting of exactly the four EBML magic
bytes has the EBML magic as its first four bytes, yet classification
returns unknown with needs_conversion false because of the 12-byte
too-small early return. -/
theorem ebml_short_blob_counterexample :
    ([0x1a, 0x45, 0xdf, 0xa3] : List Nat).take 4 = ebmlBytes ∧
    (analyze_audio_format [0x1a, 0x45, 0xdf, 0xa3]).format = "unknown" ∧
    (analyze_audio_format [0x1a, 0x45, 0xdf, 0xa3]).needs_conversion = false := by
  refine ⟨by decide, by decide, by decide⟩

/-- C4 amended: for every blob of length at least 12 whose first four
bytes are the EBML magic 0x1A45DFA3, classification returns webm with
needs_conversion true. -/
theorem analyze_ebml_webm (audio : List Nat)
    (hlen : 12 ≤ audio.length) (hpre : audio.take 4 = ebmlBytes) :
    (analyze_audio_format audio).format = "webm" ∧
    (analyze_audio_format audio).needs_conversion = true := by
  have hriff : ¬ (audio.take 4 = riffBytes ∧ (audio.drop 8).take 4 = waveBytes) := by
    intro hc
    rw [hpre] at hc
    exact absurd hc.1 (by decide)
  simp only [analyze_audio_format]
  rw [if_neg (by omega : ¬ audio.length < 12), if_neg hriff, if_pos hpre]
  exact ⟨rfl, rfl⟩

/-- Witness for the amended C4 on a concrete 12-byte EBML blob. -/
theorem analyze_ebml_webm_witness :
    (analyze_audio_format (ebmlBytes ++ List.replicate 8 0)).format = "webm" ∧
    (analyze_audio_format (ebmlBytes ++ List.replicate 8 0)).needs_conversion = true :=
  analyze_ebml_webm (ebmlBytes ++ List.replicate 8 0) (by decide) (by decide)

/-! Claim C5: the raw-PCM fallback is appended exactly when the blob
exceeds 1000 bytes, but its rate loop stops at the first configuration
producing a plausible WAV without ever consulting a recognizer: when the
recognizer rejects the 16000 Hz candidate, the remaining rates are never
tried. -/

theorem create_wav_length (a : List Nat) (rate c w : Nat) :
    (create_wav_from_raw_pcm a rate c w).length = 44 + a.length := by
  simp [create_wav_from_raw_pcm, packU16, packU32, riffBytes, waveBytes]
  omega

theorem create_wav_guard (a : List Nat) (rate c w : Nat) (ha : 1 ≤ a.length) :
    create_wav_from_raw_pcm a rate c w ≠ [] ∧
    44 < (create_wav_from_raw_pcm a rate c w).length := by
  have h := create_wav_length a rate c w
  constructor
  · apply List.ne_nil_of_length_pos
    omega
  · omega

/-- The configuration loop always commits to the 16000 Hz configuration
when the blob keeps at least 100 samples there, independently of any
recognizer. -/
theorem try_raw_pcm_first (audio : List Nat) (hlen : 200 ≤ audio.length) :
    try_raw_pcm_variants audio =
      some (create_wav_from_raw_pcm (audio.take (audio.length - audio.length % 2)) 16000 1 2) := by
  simp only [try_raw_pcm_variants, pcm_configs, try_raw_pcm_go]
  by_cases hmod : audio.length % 2 = 0
  · rw [if_neg (by omega : ¬ (audio.length % (1 * 2) ≠ 0))]
    rw [if_neg (by omega : ¬ audio.length < 1 * 2 * 100)]
    rw [if_pos (create_wav_guard audio 16000 1 2 (by omega))]
    rw [hmod]
    simp
  · rw [if_pos (by omega : audio.length % (1 * 2) ≠ 0)]
    have htl : (audio.take (audio.length - audio.length % (1 * 2))).length =
        audio.length - audio.length % (1 * 2) := by
      simp
    rw [if_neg (by rw [htl]; omega)]
    rw [if_pos (create_wav_guard _ 16000 1 2 (by rw [htl]; omega))]

/-- The full attempt trace of speech_to_text on a 2000-byte blob with no
recognizable signature, when the recognizer rejects the single raw-PCM
candidate and alternative extraction fails: one conversion, one
recognition call on the 16000 Hz candidate, one alternative attempt, one
mock attempt, and nothing else. -/
theorem stt_unknown_2000_trace (env : STTEnv) (audio : List Nat)
    (hlen : audio.length = 2000)
    (hwav : ¬ (audio.take 4 = riffBytes ∧ (audio.drop 8).take 4 = waveBytes))
    (hwebm : ¬ audio.take 4 = ebmlBytes)
    (hmp4 : listIn ftypBytes (audio.take 20) = false)
    (hogg : ¬ audio.take 4 = oggsBytes)
    (hrec : env.recognize "raw_pcm_fallback" (create_wav_from_raw_pcm audio 16000 1 2) = none)
    (halt : env.alternative audio = none) :
    (speech_to_text env audio).2 =
      [Ev.convCall "raw_pcm_fallback",
       Ev.recogCall "raw_pcm_fallback" (create_wav_from_raw_pcm audio 16000 1 2),
       Ev.altCall, Ev.mockCall] := by
  have hfmt : analyze_audio_format audio =
      { format := "unknown", is_valid := false, size := audio.length,
        needs_conversion := false, error := none } := by
    simp only [analyze_audio_format]
    rw [if_neg (by omega : ¬ audio.length < 12), if_neg hwav, if_neg hwebm,
      if_neg (by simp [hmp4] : ¬ listIn ftypBytes (audio.take 20) = true), if_neg hogg]
  have hv : (validate_audio_data audio).is_valid = true := by
    simp only [validate_audio_data]
    rw [if_neg (by omega : ¬ audio.length = 0), if_neg (by omega : ¬ audio.length < 44),
      if_neg (by omega : ¬ audio.length < 1000), if_neg (by omega : ¬ audio.length < 2000)]
  have hlik : (validate_audio_data audio).likely_has_speech = true := by
    simp only [validate_audio_data]
    rw [if_neg (by omega : ¬ audio.length = 0), if_neg (by omega : ¬ audio.length < 44),
      if_neg (by omega : ¬ audio.length < 1000), if_neg (by omega : ¬ audio.length < 2000)]
  have htake : audio.take (audio.length - audio.length % 2) = audio := by
    have h : audio.length - audio.length % 2 = audio.length := by omega
    rw [h, List.take_length]
  have htry := try_raw_pcm_first audio (by omega)
  rw [htake] at htry
  have hwavlen : 44 < (create_wav_from_raw_pcm audio 16000 1 2).length := by
    rw [create_wav_length]
    omega
  have hmeth : recognition_methods env audio (analyze_audio_format audio) =
      [Strategy.conv "raw_pcm_fallback" (some (create_wav_from_raw_pcm audio 16000 1 2))] := by
    rw [hfmt]
    simp only [recognition_methods]
    rw [if_neg (by decide), if_neg (by decide), if_neg (by decide),
      if_pos (by omega : 1000 < audio.length), htry]
    simp
  have hrun : runStrategies env audio
      [Strategy.conv "raw_pcm_fallback" (some (create_wav_from_raw_pcm audio 16000 1 2))] =
      (none, [Ev.convCall "raw_pcm_fallback",
              Ev.recogCall "raw_pcm_fallback" (create_wav_from_raw_pcm audio 16000 1 2)]) := by
    simp only [runStrategies]
    rw [if_pos hwavlen, hrec]
    simp [pushEv, runStrategies]
  have htail : (runTail env audio).2 = [Ev.altCall, Ev.mockCall] := by
    simp only [runTail, halt, pushEv]
    rw [runMock_trace]
  simp only [speech_to_text]
  rw [if_pos hv, if_neg (by omega : ¬ audio.length < 500),
    if_neg (by simp [hlik] :
      ¬ ((validate_audio_data audio).likely_has_speech = false ∧ audio.length < 2000)),
    hmeth, hrun]
  dsimp only
  rw [htail]
  rfl

/-- C5 counterexample: on a 2000-byte unknown-format blob with a
recognizer that rejects everything, the raw-PCM fallback leads to exactly
one recognition call, on the 16000 Hz candidate; the 44100 Hz candidate
is never handed to recognition even though no recognizer accepted the
first rate. -/
theorem raw_pcm_single_rate_counterexample :
    ((speech_to_text envNone (List.replicate 2000 0)).2.filter isRecogEv).length = 1 ∧
    Ev.recogCall "raw_pcm_fallback" (create_wav_from_raw_pcm (List.replicate 2000 0) 16000 1 2) ∈
      (speech_to_text envNone (List.replicate 2000 0)).2 ∧
    Ev.recogCall "raw_pcm_fallback" (create_wav_from_raw_pcm (List.replicate 2000 0) 44100 1 2) ∉
      (speech_to_text envNone (List.replicate 2000 0)).2 := by
  have hlen : (List.replicate 2000 (0 : Nat)).length = 2000 := by
    rw [List.length_replicate]
  have hne : create_wav_from_raw_pcm (List.replicate 2000 0) 44100 1 2 ≠
      create_wav_from_raw_pcm (List.replicate 2000 0) 16000 1 2 := by
    intro h
    simp only [create_wav_from_raw_pcm, hlen] at h
    have hh := List.append_cancel_right h
    exact absurd hh (by decide)
  have htr := stt_unknown_2000_trace envNone (List.replicate 2000 0) hlen
    (by
      intro hc
      have h1 := hc.1
      rw [List.take_replicate, min_eq_left (by omega)] at h1
      exact absurd h1 (by decide))
    (by
      rw [List.take_replicate, min_eq_left (by omega)]
      decide)
    (by
      rw [List.take_replicate, min_eq_left (by omega)]
      decide)
    (by
      rw [List.take_replicate, min_eq_left (by omega)]
      decide)
    rfl rfl
  rw [htr]
  refine ⟨rfl, List.mem_cons_of_mem _ (List.mem_cons_self _ _), ?_⟩
  intro hmem
  rcases List.mem_cons.mp hmem with h | hmem2
  · exact Ev.noConfusion h
  rcases List.mem_cons.mp hmem2 with h | hmem3
  · injection h with h1 h2
    exact hne h2
  rcases List.mem_cons.mp hmem3 with h | hmem4
  · exact Ev.noConfusion h
  rcases List.mem_cons.mp hmem4 with h | hmem5
  · exact Ev.noConfusion h
  · exact absurd hmem5 (List.not_mem_nil _)

/-- C5 amended: the raw-PCM-reinterpretation fallback is appended to the
strategy list exactly when the blob length exceeds 1000 bytes, and on any
blob of at least 200 bytes its configuration loop returns the 16000 Hz
mono 16-bit candidate (the blob trimmed to a sample boundary with the
44-byte header prepended) regardless of any recognizer outcome; the
later rates 44100, 48000, 22050 and 8000 Hz are unreachable whenever the
first configuration retains at least 100 samples. -/
theorem raw_pcm_fallback_amended (env : STTEnv) (audio : List Nat) :
    ((∃ s ∈ recognition_methods env audio (analyze_audio_format audio),
        stratName s = "raw_pcm_fallback") ↔ 1000 < audio.length) ∧
    (200 ≤ audio.length →
      try_raw_pcm_variants audio =
        some (create_wav_from_raw_pcm (audio.take (audio.length - audio.length % 2)) 16000 1 2)) := by
  constructor
  · constructor
    · rintro ⟨s, hs, hname⟩
      simp only [recognition_methods, List.mem_append] at hs
      rcases hs with hs | hs
      · exfalso
        split_ifs at hs with h1 h2 h3
        · simp at hs
          rcases hs with hs | hs | hs <;> subst hs <;>
            simp only [stratName] at hname <;> exact absurd hname (by decide)
        · simp at hs
          subst hs
          simp only [stratName] at hname
          rcases h2.2 with hf | hf <;> rw [hf] at hname <;> exact absurd hname (by decide)
        · simp at hs
          subst hs
          simp only [stratName] at hname
          exact absurd hname (by decide)
        · simp at hs
      · by_cases hlen : 1000 < audio.length
        · exact hlen
        · rw [if_neg hlen] at hs
          simp at hs
    · intro hlen
      refine ⟨Strategy.conv "raw_pcm_fallback" (try_raw_pcm_variants audio), ?_, rfl⟩
      simp only [recognition_methods, List.mem_append]
      right
      rw [if_pos hlen]
      simp
  · intro hlen
    exact try_raw_pcm_first audio hlen

set_option maxRecDepth 40000 in
/-- Witness for the amended C5: on a concrete 300-byte blob the fallback
yields the 16000 Hz candidate. -/
theorem raw_pcm_fallback_amended_witness :
    try_raw_pcm_variants (List.replicate 300 0) =
      some (create_wav_from_raw_pcm (List.replicate 300 0) 16000 1 2) := by
  have h := (raw_pcm_fallback_amended envNone (List.replicate 300 0)).2
    (by rw [List.length_replicate]; omega)
  rw [List.length_replicate] at h
  norm_num at h
  simpa [List.take_replicate] using h

/-! Claims C6 and C10 both rest on the early exit: any valid blob under
500 bytes is dropped before any strategy, conversion, recognition,
alternative extraction or mock attempt. -/

theorem stt_small_none (env : STTEnv) (audio : List Nat)
    (h1 : 44 ≤ audio.length) (h2 : audio.length < 500) :
    speech_to_text env audio = (none, []) := by
  have hv : (validate_audio_data audio).is_valid = true := by
    simp only [validate_audio_data]
    rw [if_neg (by omega : ¬ audio.length = 0), if_neg (by omega : ¬ audio.length < 44),
      if_pos (by omega : audio.length < 1000)]
  simp only [speech_to_text]
  rw [if_pos hv, if_pos h2]

/-- C6 counterexample: for the 50-zero-byte blob the gate verdict is
valid, not invalid, and its message says very small, not too small. -/
theorem gate_50_bytes_counterexample :
    (validate_audio_data (List.replicate 50 0)).is_valid = true ∧
    errorContains (validate_audio_data (List.replicate 50 0)) "too small" = false := by
  refine ⟨by decide, by decide⟩

/-- C6 amended: for a blob of exactly 50 zero bytes the gate returns a
valid verdict with likely_has_speech false whose message mentions very
small, and speech_to_text still returns no transcript without invoking
the strategy chain, via the 500-byte early exit. -/
theorem blob50_amended (env : STTEnv) :
    (validate_audio_data (List.replicate 50 0)).is_valid = true ∧
    (validate_audio_data (List.replicate 50 0)).likely_has_speech = false ∧
    errorContains (validate_audio_data (List.replicate 50 0)) "very small" = true ∧
    speech_to_text env (List.replicate 50 0) = (none, []) := by
  refine ⟨by decide, by decide, by decide, ?_⟩
  exact stt_small_none env (List.replicate 50 0) (by decide) (by decide)

/-! Claim C10: every blob of length 44 to 499 passes the gate yet is
dropped by speech_to_text with no transcript and no attempt of any
kind. -/

/-- C10: for every blob whose length lies in 44 to 499, the gate judges
it valid, yet speech_to_text returns no transcript and an empty attempt
trace: no conversion, recognition, alternative extraction or mock call
happens. -/
theorem small_blob_early_exit (env : STTEnv) (audio : List Nat)
    (h1 : 44 ≤ audio.length) (h2 : audio.length ≤ 499) :
    (validate_audio_data audio).is_valid = true ∧
    speech_to_text env audio = (none, []) := by
  constructor
  · simp only [validate_audio_data]
    rw [if_neg (by omega : ¬ audio.length = 0), if_neg (by omega : ¬ audio.length < 44),
      if_pos (by omega : audio.length < 1000)]
  · exact stt_small_none env audio h1 (by omega)

/-- Witness for C10 at a concrete 100-byte blob. -/
theorem small_blob_early_exit_witness :
    (validate_audio_data (List.replicate 100 0)).is_valid = true ∧
    speech_to_text envNone (List.replicate 100 0) = (none, []) :=
  small_blob_early_exit envNone (List.replicate 100 0) (by decide) (by decide)

/-! Claim C7: a 1500-byte blob with no recognizable container signature
classifies as unknown, passes the gate with likely_has_speech false, and
when the real attempts fail the chain falls through to the mock
fallback, whose transcript is one of the fixed phrases selected by the
content hash; the selection depends only on the hash of the bytes, so
the same blob always yields the same transcript. -/

theorem mock_large_getD (i : Nat) (h : i < 5) :
    mock_responses_large.getD i "" ≠ "" ∧
    mock_responses_large.getD i "" ∈ mock_responses_large := by
  interval_cases i <;> exact ⟨by decide, by decide⟩

/-- C7: for any 1500-byte blob with no recognizable signature and any
environment whose alternative extraction fails, classification is
unknown, the gate says valid without likely speech, and speech_to_text
returns exactly the mock phrase indexed by the md5-derived hash value
modulo 5, which is one of the five fixed phrases. -/
theorem noise_1500_mock_fallback (env : STTEnv) (audio : List Nat)
    (hlen : audio.length = 1500)
    (hwav : ¬ (audio.take 4 = riffBytes ∧ (audio.drop 8).take 4 = waveBytes))
    (hwebm : ¬ audio.take 4 = ebmlBytes)
    (hmp4 : listIn ftypBytes (audio.take 20) = false)
    (hogg : ¬ audio.take 4 = oggsBytes)
    (halt : env.alternative audio = none) :
    (analyze_audio_format audio).format = "unknown" ∧
    (validate_audio_data audio).is_valid = true ∧
    (validate_audio_data audio).likely_has_speech = false ∧
    (speech_to_text env audio).1 =
      some (mock_responses_large.getD (env.md5hex2 audio % 5) "") ∧
    mock_responses_large.getD (env.md5hex2 audio % 5) "" ∈ mock_responses_large := by
  have hfmt : (analyze_audio_format audio).format = "unknown" := by
    simp only [analyze_audio_format]
    rw [if_neg (by omega : ¬ audio.length < 12), if_neg hwav, if_neg hwebm,
      if_neg (by simp [hmp4] : ¬ listIn ftypBytes (audio.take 20) = true), if_neg hogg]
  have hv : (validate_audio_data audio).is_valid = true := by
    simp only [validate_audio_data]
    rw [if_neg (by omega : ¬ audio.length = 0), if_neg (by omega : ¬ audio.length < 44),
      if_neg (by omega : ¬ audio.length < 1000), if_pos (by omega : audio.length < 2000)]
  have hl : (validate_audio_data audio).likely_has_speech = false := by
    simp only [validate_audio_data]
    rw [if_neg (by omega : ¬ audio.length = 0), if_neg (by omega : ¬ audio.length < 44),
      if_neg (by omega : ¬ audio.length < 1000), if_pos (by omega : audio.length < 2000)]
  have hmock : try_mock_recognition env.md5hex2 audio =
      some (mock_responses_large.getD (env.md5hex2 audio % 5) "") := by
    simp only [try_mock_recognition]
    rw [if_neg (by omega : ¬ audio.length < 200), if_neg (by omega : ¬ audio.length < 1024)]
    rfl
  have hget := mock_large_getD (env.md5hex2 audio % 5) (Nat.mod_lt _ (by omega))
  refine ⟨hfmt, hv, hl, ?_, hget.2⟩
  simp only [speech_to_text]
  rw [if_pos hv, if_neg (by omega : ¬ audio.length < 500),
    if_pos (⟨hl, by omega⟩ : (validate_audio_data audio).likely_has_speech = false ∧ audio.length < 2000)]
  simp only [quickPath]
  rw [if_neg (by rw [hfmt]; decide : ¬ (analyze_audio_format audio).format = "webm")]
  simp only [runTail, halt, runMock, hmock, pushEv]
  rw [if_neg hget.1]

/-- Witness for C7 on a concrete 1500-byte noise blob with an
all-failing environment whose hash value is 0. -/
theorem noise_1500_mock_fallback_witness :
    (speech_to_text envNone (List.replicate 1500 1)).1 =
      some "Hello, I would like to know about your services." := by
  have h := noise_1500_mock_fallback envNone (List.replicate 1500 1)
    (by rw [List.length_replicate])
    (by
      intro hc
      have h1 := hc.1
      rw [List.take_replicate, min_eq_left (by omega)] at h1
      exact absurd h1 (by decide))
    (by
      rw [List.take_replicate, min_eq_left (by omega)]
      decide)
    (by
      rw [List.take_replicate, min_eq_left (by omega)]
      decide)
    (by
      rw [List.take_replicate, min_eq_left (by omega)]
      decide)
    rfl
  exact h.2.2.2.1

/-! Claim C8: short post-strip outputs are replaced by the canonical
fallback sentence. The source guard is that the lowercased text does not
contain the word documentation, not that it does not contain a fallback
phrase, and a sub-15-character text can never contain any of the
fallback phrases, all of which are longer than 15 characters. -/

/-- C8 counterexample: the input documentation is 13 characters after
stripping and does not contain the canonical fallback sentence, yet
post-processing does not replace it with the fallback sentence: it
returns the input with a period appended. -/
theorem short_documentation_counterexample :
    (stripScaffolding "documentation").data.length < 15 ∧
    pyContains (stripScaffolding "documentation") fallback_doc_message = false ∧
    clean_and_validate_response "documentation" = "documentation." ∧
    clean_and_validate_response "documentation" ≠ fallback_doc_message := by
  refine ⟨by decide, by decide, by decide, by decide⟩

/-- C8 amended: any text whose length after scaffolding stripping is
below 15 characters and whose lowercased form does not contain the
substring documentation is replaced with the canonical fallback
sentence; in particular the exact input ok is replaced. -/
theorem short_response_fallback_amended (resp : String)
    (h1 : (stripScaffolding resp).data.length < 15)
    (h2 : pyContains (pyLower (stripScaffolding resp)) "documentation" = false) :
    clean_and_validate_response resp = fallback_doc_message := by
  have hph : ¬ (pyContains (stripScaffolding resp)
      "I\x27m here to provide support based on our documentation" = true) := by
    intro hc
    have hlen := listIn_length_le _ _ hc
    have h54 : ("I\x27m here to provide support based on our documentation" : String).data.length = 54 := by
      decide
    omega
  simp only [clean_and_validate_response]
  rw [if_neg hph, if_pos (⟨h1, h2⟩ :
    (stripScaffolding resp).data.length < 15 ∧
      pyContains (pyLower (stripScaffolding resp)) "documentation" = false)]

/-- Witness for the amended C8: the exact input ok is replaced by the
canonical fallback sentence. -/
theorem short_response_fallback_amended_witness :
    clean_and_validate_response "ok" = fallback_doc_message :=
  short_response_fallback_amended "ok" (by decide) (by decide)

/-! Claim C9: post-processed output always ends with terminal
punctuation. The source sentinel set also contains the closing
parenthesis and the double quote, which are not terminal punctuation, so
an output can end with a parenthesis and nothing is appended. -/

/-- C9 counterexample: a cleaned output can end with a closing
parenthesis, which is not one of the terminal punctuation marks period,
exclamation mark or question mark, and no mark is appended. -/
theorem terminal_punctuation_counterexample :
    clean_and_validate_response "This is an example)" = "This is an example)" ∧
    (clean_and_validate_response "This is an example)").data.getLast? = some ')' ∧
    ')' ∉ (['.', '!', '?'] : List Char) := by
  refine ⟨by decide, by decide, by decide⟩

/-- C9 amended: for every input, the post-processed output ends with one
of the five sentinel characters question mark, period, exclamation mark,
closing parenthesis or double quote; when the cleaned response ends with
none of these, a period is appended. -/
theorem clean_response_ending_amended (resp : String) :
    pyEndsWithAny (clean_and_validate_response resp) ['?', '.', '!', ')', '\x22'] = true := by
  simp only [clean_and_validate_response]
  split_ifs with h1 h2 h3
  · decide
  · decide
  · exact h3
  · simp only [pyEndsWithAny]
    rw [getLast?_append_single]
    decide

end EchoPersona
